import Mathlib

/-
  Shallow embedding of the implicit mass-spring solver core of
  blender/physics/intern/BPH_mass_spring.cpp (cloth and strand solvers).

  Modelling conventions:
  * float scalars are modelled as exact rationals (ℚ); 3-vectors as `V3`;
  * C arrays of vertices are Lean lists, indexed reads use `List.getD`;
  * functions declared in implicit.h (the linear-algebra backend, which is
    not part of the sources at hand) are modelled abstractly, each with a
    doc comment starting `Modelled from the spec:`;
  * the names of the Lean definitions follow the C identifiers.
-/

namespace BPH

/-- A 3-vector of rationals, modelling a `float[3]`. -/
structure V3 where
  x : ℚ
  y : ℚ
  z : ℚ
  deriving DecidableEq, Repr

/-- `zero_v3`. -/
def zero_v3 : V3 := ⟨0, 0, 0⟩

/-- `sub_v3_v3v3(r, a, b)`: componentwise difference. -/
def sub_v3_v3v3 (a b : V3) : V3 := ⟨a.x - b.x, a.y - b.y, a.z - b.z⟩

/-- `dot_v3v3(a, b)`. -/
def dot_v3v3 (a b : V3) : ℚ := a.x * b.x + a.y * b.y + a.z * b.z

/-- `madd_v3_v3v3fl(r, a, b, f)`: r = a + b * f. -/
def madd_v3_v3v3fl (a b : V3) (f : ℚ) : V3 :=
  ⟨a.x + b.x * f, a.y + b.y * f, a.z + b.z * f⟩

/-- `mul_v3_v3fl(r, a, f)`: r = a * f. -/
def mul_v3_v3fl (a : V3) (f : ℚ) : V3 := ⟨a.x * f, a.y * f, a.z * f⟩

/-- `interp_v3_v3v3(r, a, b, t)`: r = a + t * (b - a). -/
def interp_v3_v3v3 (a b : V3) (t : ℚ) : V3 :=
  ⟨a.x + t * (b.x - a.x), a.y + t * (b.y - a.y), a.z + t * (b.z - a.z)⟩

/-- The `CLAMP(a, b, c)` macro of BLI_utildefines.h:
    if (a < b) a = b; else if (a > c) a = c. -/
def CLAMP (a b c : ℚ) : ℚ := if a < b then b else if a > c then c else a

/-- `min_ff`. -/
def min_ff (a b : ℚ) : ℚ := if a < b then a else b

/-- `max_ff`. -/
def max_ff (a b : ℚ) : ℚ := if a > b then a else b

/-- `min_ii` (on the nonnegative iteration counts used here). -/
def min_ii (a b : ℕ) : ℕ := if a < b then a else b

/-- `max_ii`. -/
def max_ii (a b : ℕ) : ℕ := if a > b then a else b

/-- Modelled from the spec: `ALMOST_ZERO`, the small positive threshold used
    by the solver headers (implicit.h, not among the sources) to test whether
    the vertex is moving toward the collider. Only its positivity matters to
    the claims below. -/
def ALMOST_ZERO : ℚ := 1 / 1000000

/-- The spring types of DNA_cloth_types.h that the solver distinguishes.
    `cloth_count_nondiag_blocks` only branches on `BENDING_ANG`. -/
inductive ClothSpringType where
  | structural
  | shear
  | bending
  | bendingAng
  | goal
  | sewing
  deriving DecidableEq, Repr

/-- A `ClothSpring`: the fields the embedded functions touch. -/
structure ClothSpring where
  ij : ℕ
  kl : ℕ
  type : ClothSpringType
  deriving DecidableEq, Repr

/-- A `ClothVertex`: the fields the embedded functions touch.
    `pinned` models the `CLOTH_VERT_FLAG_PINNED` bit of `flags`. -/
structure ClothVertex where
  xv : V3
  v : V3
  xold : V3
  xconst : V3
  mass : ℚ
  pinned : Bool
  impulse_count : ℕ
  deriving DecidableEq, Repr

instance : Inhabited ClothVertex :=
  ⟨⟨zero_v3, zero_v3, zero_v3, zero_v3, 0, false, 0⟩⟩

/-- A per-vertex constraint held by the solver state, as added by
    `BPH_mass_spring_add_constraint_ndof0/2`. -/
inductive Constraint where
  | ndof0 (index : ℕ) (dV : V3)
  | ndof2 (index : ℕ) (c1 : V3) (dV : V3)
  deriving DecidableEq, Repr

/-- Modelled from the spec: the `Implicit_Data` solver state created by
    `BPH_mass_spring_solver_create` (implicit.h backend, not among the
    sources): storage for `numvert` vertices and `nondiag` off-diagonal
    3×3 blocks, plus the active constraints. `allocId` tags the allocation
    so that reuse versus reallocation is observable. -/
structure Implicit_Data where
  numvert : ℕ
  nondiag : ℕ
  allocId : ℕ
  constraints : List Constraint
  deriving DecidableEq, Repr

/-- Modelled from the spec: allocate solver storage for `totvert` vertices
    and `nondiag` off-diagonal interaction slots. -/
def BPH_mass_spring_solver_create (totvert nondiag allocId : ℕ) : Implicit_Data :=
  ⟨totvert, nondiag, allocId, []⟩

/-- Modelled from the spec: query the vertex count the solver state was
    allocated for. -/
def BPH_mass_spring_solver_numvert (id : Implicit_Data) : ℕ := id.numvert

/-- The `Cloth` body: the fields the embedded functions touch. -/
structure Cloth where
  numverts : ℕ
  verts : List ClothVertex
  springs : List ClothSpring
  implicit : Option Implicit_Data
  deriving DecidableEq, Repr

/-- `cloth_count_nondiag_blocks`: one block per vertex-vertex interaction;
    the switch adds 3 for `CLOTH_SPRING_TYPE_BENDING_ANG` and 1 in the
    default case. The C traversal walks the `springs` linked list. -/
def cloth_count_nondiag_blocks (cloth : Cloth) : ℕ :=
  cloth.springs.foldl
    (fun nondiag spring =>
      match spring.type with
      | ClothSpringType.bendingAng => nondiag + 3
      | _ => nondiag + 1)
    0

/-- `cloth_solver_init_data`: free the solver state if the vertex count
    changed, then lazily create it when absent; returns the solver state
    together with the updated cloth. `freshId` stands for the address of a
    fresh allocation. -/
def cloth_solver_init_data (cloth : Cloth) (freshId : ℕ) : Implicit_Data × Cloth :=
  let totvert := cloth.numverts
  let cloth1 :=
    match cloth.implicit with
    | some id =>
        if totvert ≠ BPH_mass_spring_solver_numvert id then
          { cloth with implicit := none }
        else cloth
    | none => cloth
  match cloth1.implicit with
  | some id => (id, cloth1)
  | none =>
      let nondiag := cloth_count_nondiag_blocks cloth1
      let id := BPH_mass_spring_solver_create totvert nondiag freshId
      (id, { cloth1 with implicit := some id })

/-- The per-spring vertex-pair count named by the spec: "1 for 2-body
    springs, 3 for angular-bending springs touching 3 vertices". -/
def specSpringPairCount (t : ClothSpringType) : ℕ :=
  match t with
  | ClothSpringType.bendingAng => 3
  | _ => 1

/-- A `CollPair` collision contact. `v2_old`/`v2_new` model the collider
    velocities that `collision_get_collider_velocity` (external collision
    module) reports for this pair; `flag_in_future` models the
    `COLLISION_IN_FUTURE` bit of `flag`. -/
structure CollPair where
  face1 : ℕ
  ap1 : ℕ
  normal : V3
  distance : ℚ
  flag_in_future : Bool
  v2_old : V3
  v2_new : V3
  deriving DecidableEq, Repr

/-- One `ColliderContacts` entry: its contact list, and the collider's BVH
    tree epsilon as returned by `BLI_bvhtree_getepsilon(collmd->bvhtree)`. -/
structure ColliderContacts where
  epsilon : ℚ
  collisions : List CollPair
  deriving DecidableEq, Repr

/-- `collision_response`: per-contact impulse computation. Returns the C
    function's boolean result together with `r_impulse` (zeroed on the
    early-out paths). The unused tangential components `v_tan_old`/`v_tan_new`
    of the C code are omitted. -/
def collision_response (cloth : Cloth) (epsilon2 : ℚ) (collpair : CollPair)
    (dt restitution : ℚ) : Bool × V3 :=
  let index := collpair.ap1
  let margin_distance := collpair.distance - epsilon2
  if margin_distance > 0 then (false, zero_v3)
  else if collpair.flag_in_future then (false, zero_v3)
  else
    let v1 := (cloth.verts.getD index default).v
    let v_rel_old := sub_v3_v3v3 v1 collpair.v2_old
    let v_rel_new := sub_v3_v3v3 v1 collpair.v2_new
    let mag_v_rel := dot_v3v3 v_rel_old collpair.normal
    if mag_v_rel < -ALMOST_ZERO then
      let v_nor_old := mag_v_rel
      let v_nor_new := dot_v3v3 v_rel_new collpair.normal
      let bounce := -v_nor_old * restitution
      let repulse := CLAMP (-margin_distance / dt) 0 (4 * bounce)
      if margin_distance < -epsilon2 then
        (true, mul_v3_v3fl collpair.normal (max_ff repulse bounce - v_nor_new))
      else
        (true, mul_v3_v3fl collpair.normal (repulse - v_nor_new))
    else (false, zero_v3)

/-- The local `mag_v_rel` (= `v_nor_old`) of `collision_response`: the normal
    component of the relative velocity of the cloth vertex `ap1` with respect
    to the collider's old state. -/
def mag_v_rel_old (cloth : Cloth) (collpair : CollPair) : ℚ :=
  dot_v3v3 (sub_v3_v3v3 (cloth.verts.getD collpair.ap1 default).v collpair.v2_old)
    collpair.normal

/-- The local `v_nor_new` of `collision_response`: the normal component of
    the relative velocity with respect to the collider's new state. -/
def v_nor_new (cloth : Cloth) (collpair : CollPair) : ℚ :=
  dot_v3v3 (sub_v3_v3v3 (cloth.verts.getD collpair.ap1 default).v collpair.v2_new)
    collpair.normal

/-- The state threaded through `cloth_setup_constraints`: the solver's
    constraint list and the cloth's vertex array (whose `impulse_count`
    fields the function mutates). -/
structure SetupState where
  constraints : List Constraint
  verts : List ClothVertex
  deriving DecidableEq, Repr

/-- The body of the inner contact loop of `cloth_setup_constraints`, for the
    collider with loop index `i`. Note that the C code passes the collider
    loop index `i` — not the contact's vertex index `v` — to
    `BPH_mass_spring_add_constraint_ndof2`. -/
def cloth_setup_contact (cloth : Cloth) (dt : ℚ) (i : ℕ) (epsilon2 : ℚ)
    (st : SetupState) (collpair : CollPair) : SetupState :=
  let v := collpair.face1
  let restitution : ℚ := 0
  let vert := st.verts.getD v default
  if vert.pinned then st
  else if vert.impulse_count > 0 then st
  else
    let res := collision_response { cloth with verts := st.verts } epsilon2 collpair dt restitution
    if res.1 = false then st
    else
      { constraints := st.constraints ++ [Constraint.ndof2 i collpair.normal res.2],
        verts := st.verts.set v { vert with impulse_count := vert.impulse_count + 1 } }

/-- `cloth_setup_constraints`: clear all constraints, then in one pass over
    the vertices add a zero-degrees-of-freedom constraint for each pinned
    vertex and reset every vertex's `impulse_count` to zero, then loop over
    the colliders and their contacts. The single C vertex loop is rendered
    as the pin-constraint pass plus the reset map; the emitted constraints
    and final vertex states coincide. -/
def cloth_setup_constraints (cloth : Cloth) (contacts : List ColliderContacts)
    (dt : ℚ) : SetupState :=
  let pinned_constraints :=
    (List.range cloth.verts.length).filterMap fun v =>
      if (cloth.verts.getD v default).pinned then some (Constraint.ndof0 v zero_v3)
      else none
  let verts0 := cloth.verts.map fun vert => { vert with impulse_count := 0 }
  contacts.enum.foldl
    (fun st ict =>
      ict.2.collisions.foldl (cloth_setup_contact cloth dt ict.1 ict.2.epsilon) st)
    ⟨pinned_constraints, verts0⟩

/-- Modelled from the spec: the success bit-flag of the solver status word
    (implicit.h, not among the sources; the spec calls the status
    "bit-flags (success / max-iterations-exceeded / NaN)"). -/
def BPH_SOLVER_SUCCESS : ℕ := 1

/-- An `ImplicitSolverResult` as filled in by one linear solve. -/
structure ImplicitSolverResult where
  status : ℕ
  iterations : ℕ
  error : ℚ
  deriving DecidableEq, Repr

/-- The per-frame `ClothSolverResult` aggregate. -/
structure ClothSolverResult where
  status : ℕ
  max_error : ℚ
  min_error : ℚ
  avg_error : ℚ
  max_iterations : ℕ
  min_iterations : ℕ
  avg_iterations : ℚ
  deriving DecidableEq, Repr

/-- `cloth_clear_result`: zero every field at frame start. -/
def cloth_clear_result : ClothSolverResult := ⟨0, 0, 0, 0, 0, 0, 0⟩

/-- `cloth_record_result`: merge one substep's solver result into the frame
    aggregate; `steps` is `clmd->sim_parms->stepsPerFrame`. -/
def cloth_record_result (sres : ClothSolverResult) (result : ImplicitSolverResult)
    (steps : ℕ) : ClothSolverResult :=
  if sres.status ≠ 0 then
    let sres1 :=
      if result.status = BPH_SOLVER_SUCCESS then
        { sres with
            min_error := min_ff sres.min_error result.error,
            max_error := max_ff sres.max_error result.error,
            avg_error := sres.avg_error + result.error / (steps : ℚ) }
      else sres
    { sres1 with
        min_iterations := min_ii sres1.min_iterations result.iterations,
        max_iterations := max_ii sres1.max_iterations result.iterations,
        avg_iterations := sres1.avg_iterations + (result.iterations : ℚ) / (steps : ℚ),
        status := Nat.lor sres1.status result.status }
  else
    let sres1 :=
      if result.status = BPH_SOLVER_SUCCESS then
        { sres with
            min_error := result.error,
            max_error := result.error,
            avg_error := sres.avg_error + result.error / (steps : ℚ) }
      else sres
    { sres1 with
        min_iterations := result.iterations,
        max_iterations := result.iterations,
        avg_iterations := sres1.avg_iterations + (result.iterations : ℚ) / (steps : ℚ),
        status := Nat.lor sres1.status result.status }

/-- The cloth simulation parameters `BPH_cloth_solve` reads; `goal_flag`
    models the `CLOTH_SIMSETTINGS_FLAG_GOAL` bit. -/
structure ClothSimParams where
  timescale : ℚ
  stepsPerFrame : ℕ
  goal_flag : Bool
  deriving DecidableEq, Repr

/-- One substep of the `while (step < tf)` loop of `BPH_cloth_solve`, viewed
    through the solver's per-vertex positions. `solver` abstracts the whole
    force-accumulation / linear-solve / position-integration pipeline of the
    substep (the implicit.h backend, not among the sources): it may move the
    positions arbitrarily. After it, the loop body overwrites each pinned
    vertex's position (when the goal flag is set) with
    `interp_v3_v3v3(x, verts[i].xold, verts[i].xconst, step + dt)`. -/
def cloth_solve_substep (solver : ℚ → (ℕ → V3) → (ℕ → V3))
    (parms : ClothSimParams) (verts : List ClothVertex) (dt step : ℚ)
    (pos : ℕ → V3) : ℕ → V3 :=
  let pos1 := solver step pos
  fun i =>
    let vert := verts.getD i default
    if parms.goal_flag ∧ vert.pinned then
      interp_v3_v3v3 vert.xold vert.xconst (step + dt)
    else pos1 i

/-- The first `k` substeps of `BPH_cloth_solve`'s loop: substep number `j`
    (0-based) runs with `step = j * dt`, since the loop starts at
    `step = 0.0f` and ends each iteration with `step += dt`. -/
def cloth_solve_substeps (solver : ℚ → (ℕ → V3) → (ℕ → V3))
    (parms : ClothSimParams) (verts : List ClothVertex) (dt : ℚ) :
    ℕ → (ℕ → V3) → (ℕ → V3)
  | 0, pos => pos
  | k + 1, pos =>
      cloth_solve_substep solver parms verts dt ((k : ℚ) * dt)
        (cloth_solve_substeps solver parms verts dt k pos)

/-- The `for (float step = 0.0f; step < 1.0f; step += dstep)` loop of
    `BPH_strands_solve`, counting executions of the loop body. The body ends
    with a second `step += dstep`, so between two body entries `step` grows
    by `dstep + dstep`. `fuel` is an upper bound on the remaining iterations
    (the theorems below show any `fuel ≥ substeps` is enough). -/
def BPH_strands_solve_loop (dstep : ℚ) : ℕ → ℚ → ℕ
  | 0, _ => 0
  | fuel + 1, step =>
      if step < 1 then BPH_strands_solve_loop dstep fuel (step + dstep + dstep) + 1
      else 0

/-- Evaluation fixture: three unpinned unit-mass vertices, the third moving
    straight down. -/
def exampleVerts : List ClothVertex :=
  [⟨zero_v3, zero_v3, zero_v3, zero_v3, 1, false, 0⟩,
   ⟨zero_v3, zero_v3, zero_v3, zero_v3, 1, false, 0⟩,
   ⟨zero_v3, ⟨0, 0, -1⟩, zero_v3, zero_v3, 1, false, 0⟩]

/-- Evaluation fixture: the cloth body over `exampleVerts`. -/
def exampleCloth : Cloth := ⟨3, exampleVerts, [], none⟩

/-- Evaluation fixture: a static contact on vertex 2 with upward normal at
    distance 0. -/
def exampleContact : CollPair := ⟨2, 2, ⟨0, 0, 1⟩, 0, false, zero_v3, zero_v3⟩

/-- Evaluation fixture: one collider delivering `exampleContact`, with BVH
    epsilon 1. -/
def exampleCollider : ColliderContacts := ⟨1, [exampleContact]⟩

/-- The folding invariant for `cloth_record_result`: after recording substep
    results with error list `seenE` and iteration list `seenI` (all
    successful), the aggregate holds the success status, the running averages,
    and the extremes of what was seen. -/
def RecordAgg (seenE : List ℚ) (seenI : List ℕ) (n : ℕ)
    (s : ClothSolverResult) : Prop :=
  s.status = BPH_SOLVER_SUCCESS
  ∧ s.avg_error = seenE.sum / (n : ℚ)
  ∧ s.avg_iterations = (seenI.map fun it => (it : ℚ)).sum / (n : ℚ)
  ∧ (∀ e ∈ seenE, s.min_error ≤ e ∧ e ≤ s.max_error)
  ∧ s.min_error ∈ seenE ∧ s.max_error ∈ seenE
  ∧ (∀ it ∈ seenI, s.min_iterations ≤ it ∧ it ≤ s.max_iterations)
  ∧ s.min_iterations ∈ seenI ∧ s.max_iterations ∈ seenI

/-- `cp` is one of the contacts delivered by one of the colliders. -/
def InContacts (contacts : List ColliderContacts) (cp : CollPair) : Prop :=
  ∃ ct ∈ contacts, cp ∈ ct.collisions

/-- The invariant maintained by the contact loops of
    `cloth_setup_constraints` over the threaded state: the vertex array keeps
    its length, velocities and pin flags; impulse counts stay at most 1 and
    zero on pinned vertices; the zero-degrees-of-freedom constraints are
    untouched; and every two-degrees-of-freedom constraint carries the
    restitution-zero impulse of one of the contacts. -/
def SetupInv (cloth : Cloth) (contacts : List ColliderContacts)
    (st : SetupState) : Prop :=
  st.verts.length = cloth.verts.length
  ∧ (∀ i : ℕ,
      (st.verts.getD i default).v = (cloth.verts.getD i default).v
      ∧ (st.verts.getD i default).pinned = (cloth.verts.getD i default).pinned
      ∧ (st.verts.getD i default).impulse_count ≤ 1
      ∧ ((st.verts.getD i default).pinned = true →
          (st.verts.getD i default).impulse_count = 0))
  ∧ (∀ v : ℕ, st.constraints.count (Constraint.ndof0 v zero_v3)
      = (cloth_setup_constraints cloth [] 1).constraints.count (Constraint.ndof0 v zero_v3))
  ∧ (∀ idx : ℕ, ∀ n imp : V3,
      Constraint.ndof2 idx n imp ∈ st.constraints →
      ∃ cp : CollPair, InContacts contacts cp ∧ n = cp.normal
        ∧ imp = mul_v3_v3fl cp.normal (-(v_nor_new cloth cp)))

/- ===================== Helper lemmas ===================== -/

/-- The step of `cloth_count_nondiag_blocks`'s fold adds exactly the
    per-spring pair count. -/
lemma count_step_eq (n : ℕ) (s : ClothSpring) :
    (match s.type with
      | ClothSpringType.bendingAng => n + 3
      | _ => n + 1) = n + specSpringPairCount s.type := by
  cases s.type <;> rfl

/-- `cloth_count_nondiag_blocks`'s fold, from any accumulator, adds the sum
    of the per-spring pair counts. -/
lemma count_fold_eq (springs : List ClothSpring) :
    ∀ n : ℕ,
      springs.foldl
        (fun nondiag spring =>
          match spring.type with
          | ClothSpringType.bendingAng => nondiag + 3
          | _ => nondiag + 1)
        n
      = n + (springs.map fun s => specSpringPairCount s.type).sum := by
  induction springs with
  | nil => intro n; simp
  | cons s rest ih =>
      intro n
      simp only [List.foldl_cons, List.map_cons, List.sum_cons]
      rw [count_step_eq, ih]
      ring

/-- `cloth_count_nondiag_blocks` only reads the spring list. -/
lemma count_nondiag_implicit_irrel (cloth : Cloth) :
    cloth_count_nondiag_blocks { cloth with implicit := none }
      = cloth_count_nondiag_blocks cloth := rfl

/- ===================== C1 ===================== -/

/-- C1: for every cloth body, `cloth_count_nondiag_blocks` equals the sum
    over all springs of the vertex-pair count that spring type touches
    (3 for angular-bending springs, 1 for every other spring), and whenever
    `cloth_solver_init_data` allocates a solver state (no solver state yet,
    or a stale one with a different vertex count), the state is created with
    exactly this off-diagonal block capacity. -/
theorem cloth_solver_init_nondiag_capacity (cloth : Cloth) (freshId : ℕ)
    (h : cloth.implicit = none ∨
          ∃ s, cloth.implicit = some s ∧ s.numvert ≠ cloth.numverts) :
    cloth_count_nondiag_blocks cloth
        = (cloth.springs.map fun s => specSpringPairCount s.type).sum
    ∧ (cloth_solver_init_data cloth freshId).1.nondiag
        = (cloth.springs.map fun s => specSpringPairCount s.type).sum := by
  have hcount : cloth_count_nondiag_blocks cloth
      = (cloth.springs.map fun s => specSpringPairCount s.type).sum := by
    unfold cloth_count_nondiag_blocks
    simpa using count_fold_eq cloth.springs 0
  refine ⟨hcount, ?_⟩
  rcases h with hnone | ⟨s, hs, hne⟩
  · simp [cloth_solver_init_data, hnone, BPH_mass_spring_solver_create, hcount]
  · simp [cloth_solver_init_data, hs, BPH_mass_spring_solver_numvert,
      Ne.symm hne, BPH_mass_spring_solver_create, count_nondiag_implicit_irrel, hcount]

/-- Witness for C1: a cloth with one structural and one angular-bending
    spring and no solver state yet gets capacity 1 + 3 = 4. -/
theorem cloth_solver_init_nondiag_capacity_witness :
    (cloth_solver_init_data
        ⟨2, [], [⟨0, 1, ClothSpringType.structural⟩, ⟨0, 1, ClothSpringType.bendingAng⟩],
          none⟩ 0).1.nondiag = 4 := by
  have h := cloth_solver_init_nondiag_capacity
    ⟨2, [], [⟨0, 1, ClothSpringType.structural⟩, ⟨0, 1, ClothSpringType.bendingAng⟩], none⟩
    0 (Or.inl rfl)
  simpa using h.2

/- ===================== C8 ===================== -/

/-- C8: `cloth_solver_init_data` reuses the existing solver state unchanged
    exactly when the body's vertex count equals the solver's stored vertex
    count; when the counts differ the old state is dropped and a fresh state
    is allocated (with the freshly counted capacity). -/
theorem cloth_solver_init_reuse (cloth : Cloth) (s : Implicit_Data) (freshId : ℕ)
    (h : cloth.implicit = some s) :
    (s.numvert = cloth.numverts →
        cloth_solver_init_data cloth freshId = (s, cloth))
    ∧ (s.numvert ≠ cloth.numverts →
        (cloth_solver_init_data cloth freshId).1
            = BPH_mass_spring_solver_create cloth.numverts
                (cloth_count_nondiag_blocks cloth) freshId
        ∧ (cloth_solver_init_data cloth freshId).2.implicit
            = some ((cloth_solver_init_data cloth freshId).1)) := by
  constructor
  · intro heq
    simp [cloth_solver_init_data, h, BPH_mass_spring_solver_numvert, heq]
  · intro hne
    simp [cloth_solver_init_data, h, BPH_mass_spring_solver_numvert,
      Ne.symm hne, count_nondiag_implicit_irrel]

/-- Witness for C8: a 2-vertex body whose solver state already stores 2
    vertices is returned unchanged. -/
theorem cloth_solver_init_reuse_witness :
    cloth_solver_init_data ⟨2, [], [], some ⟨2, 5, 7, []⟩⟩ 9
      = (⟨2, 5, 7, []⟩, ⟨2, [], [], some ⟨2, 5, 7, []⟩⟩) := by
  have h := cloth_solver_init_reuse ⟨2, [], [], some ⟨2, 5, 7, []⟩⟩ ⟨2, 5, 7, []⟩ 9 rfl
  exact h.1 rfl

/- ===================== C10 ===================== -/

/-- For positive `n`, the strand loop started at `step = m / n` with
    increment `dstep = 1 / n` runs its body `⌈(n - m) / 2⌉` more times,
    provided the fuel covers the remaining iterations. -/
lemma strands_solve_loop_aux (n : ℕ) (hn : 0 < n) :
    ∀ fuel m : ℕ, n - m ≤ 2 * fuel →
      BPH_strands_solve_loop (1 / (n : ℚ)) fuel ((m : ℚ) / (n : ℚ))
        = (n - m + 1) / 2 := by
  have hnq : (0 : ℚ) < (n : ℚ) := by exact_mod_cast hn
  intro fuel
  induction fuel with
  | zero =>
      intro m h
      have hz : n - m = 0 := by omega
      simp [BPH_strands_solve_loop, hz]
  | succ f ih =>
      intro m h
      by_cases hm : m < n
      · have hlt : (m : ℚ) / (n : ℚ) < 1 := by
          rw [div_lt_one hnq]
          exact_mod_cast hm
        have harg : (m : ℚ) / (n : ℚ) + 1 / (n : ℚ) + 1 / (n : ℚ)
            = ((m + 2 : ℕ) : ℚ) / (n : ℚ) := by
          push_cast
          ring
        have hrec := ih (m + 2) (by omega)
        simp only [BPH_strands_solve_loop, if_pos hlt, harg, hrec]
        omega
      · have hge : ¬ ((m : ℚ) / (n : ℚ) < 1) := by
          rw [div_lt_one hnq]
          intro hc
          exact hm (by exact_mod_cast hc)
        have h0 : n - m = 0 := by omega
        simp [BPH_strands_solve_loop, hge, h0]

/-- C10: in `BPH_strands_solve`, `step` is incremented by `dstep = 1/substeps`
    both in the `for` header and again at the end of the loop body, so for a
    requested substep count `n ≥ 1` the loop body executes `⌈n / 2⌉` times
    (for any fuel bound covering the requested count), which is fewer than
    `n` whenever `n ≥ 2`. -/
theorem strands_solve_body_count (n fuel : ℕ) (h1 : 0 < n) (h2 : n ≤ fuel) :
    BPH_strands_solve_loop (1 / (n : ℚ)) fuel 0 = (n + 1) / 2
    ∧ (2 ≤ n → (n + 1) / 2 < n) := by
  have h := strands_solve_loop_aux n h1 fuel 0 (by omega)
  constructor
  · simpa using h
  · intro hn2
    omega

/-- Witness for C10: with 5 requested substeps the body runs only 3 times. -/
theorem strands_solve_body_count_witness :
    BPH_strands_solve_loop (1 / (5 : ℚ)) 5 0 = 3 := by
  have h := strands_solve_body_count 5 5 (by decide) (by decide)
  simpa using h.1

/- ===================== collision_response lemmas ===================== -/

/-- `collision_response` with its local variables substituted away. -/
lemma collision_response_unfold (cloth : Cloth) (epsilon2 : ℚ) (collpair : CollPair)
    (dt restitution : ℚ) :
    collision_response cloth epsilon2 collpair dt restitution
      = if collpair.distance - epsilon2 > 0 then (false, zero_v3)
        else if collpair.flag_in_future then (false, zero_v3)
        else if mag_v_rel_old cloth collpair < -ALMOST_ZERO then
          (if collpair.distance - epsilon2 < -epsilon2 then
            (true, mul_v3_v3fl collpair.normal
              (max_ff
                  (CLAMP (-(collpair.distance - epsilon2) / dt) 0
                    (4 * (-(mag_v_rel_old cloth collpair) * restitution)))
                  (-(mag_v_rel_old cloth collpair) * restitution)
                - v_nor_new cloth collpair))
          else
            (true, mul_v3_v3fl collpair.normal
              (CLAMP (-(collpair.distance - epsilon2) / dt) 0
                  (4 * (-(mag_v_rel_old cloth collpair) * restitution))
                - v_nor_new cloth collpair)))
        else (false, zero_v3) := rfl

/-- `CLAMP x 0 c` lands in `[0, c]` whenever `0 ≤ c`. -/
lemma CLAMP_mem_of_nonneg (x c : ℚ) (hc : 0 ≤ c) :
    0 ≤ CLAMP x 0 c ∧ CLAMP x 0 c ≤ c := by
  unfold CLAMP
  split_ifs with h1 h2 <;> constructor <;> linarith

/-- `CLAMP x 0 0 = 0`. -/
lemma CLAMP_zero (x : ℚ) : CLAMP x 0 0 = 0 := by
  unfold CLAMP
  split_ifs with h1 h2 <;> linarith

/-- `ALMOST_ZERO` is positive. -/
lemma ALMOST_ZERO_pos : (0 : ℚ) < ALMOST_ZERO := by norm_num [ALMOST_ZERO]

/- ===================== C5 ===================== -/

/-- C5: `collision_response` returns `false` with a zeroed impulse whenever
    the contact is flagged as lying in the future, whenever the normal
    component of the old relative velocity is not negative, or whenever the
    contact's distance exceeds the collision epsilon; an impulse is produced
    only when all three preconditions hold. -/
theorem collision_response_guards (cloth : Cloth) (epsilon2 : ℚ)
    (collpair : CollPair) (dt restitution : ℚ) :
    (collpair.flag_in_future = true →
        collision_response cloth epsilon2 collpair dt restitution = (false, zero_v3))
    ∧ (0 ≤ mag_v_rel_old cloth collpair →
        collision_response cloth epsilon2 collpair dt restitution = (false, zero_v3))
    ∧ (collpair.distance > epsilon2 →
        collision_response cloth epsilon2 collpair dt restitution = (false, zero_v3))
    ∧ ((collision_response cloth epsilon2 collpair dt restitution).1 = true →
        collpair.flag_in_future = false
        ∧ mag_v_rel_old cloth collpair < 0
        ∧ collpair.distance ≤ epsilon2) := by
  have haz := ALMOST_ZERO_pos
  refine ⟨?_, ?_, ?_, ?_⟩
  · intro h
    rw [collision_response_unfold]
    by_cases h1 : collpair.distance - epsilon2 > 0
    · rw [if_pos h1]
    · rw [if_neg h1, if_pos h]
  · intro h
    have hm : ¬ mag_v_rel_old cloth collpair < -ALMOST_ZERO := by
      push_neg
      linarith
    rw [collision_response_unfold]
    split_ifs <;> first | rfl | exact absurd (by assumption) hm
  · intro h
    rw [collision_response_unfold, if_pos (by linarith : collpair.distance - epsilon2 > 0)]
  · intro h
    rw [collision_response_unfold] at h
    split_ifs at h with h1 h2 h3 h4
    all_goals
      first
        | exact ⟨by simpa using h2, by linarith [h3, haz], by linarith [not_lt.mp h1]⟩
        | simp at h

/-- Witness for C5: a contact flagged "in the future" (at negative margin,
    with the vertex moving inward) produces no impulse. -/
theorem collision_response_guards_witness :
    collision_response
        ⟨1, [⟨zero_v3, ⟨0, 0, -1⟩, zero_v3, zero_v3, 1, false, 0⟩], [], none⟩
        (1 / 10)
        ⟨0, 0, ⟨0, 0, 1⟩, 0, true, zero_v3, zero_v3⟩ 1 0
      = (false, zero_v3) :=
  (collision_response_guards
      ⟨1, [⟨zero_v3, ⟨0, 0, -1⟩, zero_v3, zero_v3, 1, false, 0⟩], [], none⟩
      (1 / 10) ⟨0, 0, ⟨0, 0, 1⟩, 0, true, zero_v3, zero_v3⟩ 1 0).1 rfl

/- ===================== C4 ===================== -/

/-- C4: in the accepted branch of `collision_response`, the repulsion term
    (penetration depth divided by the timestep) is clamped to lie between 0
    and 4 times the bounce term (restitution times the inward old normal
    velocity); when the vertex penetrates deeper than the epsilon margin the
    impulse is the contact normal scaled by the larger of bounce and clamped
    repulsion minus the new normal relative velocity, and otherwise bounce is
    dropped and the impulse is the normal scaled by the clamped repulsion
    minus the new normal relative velocity. -/
theorem collision_response_repulsion_clamp (cloth : Cloth) (epsilon2 : ℚ)
    (collpair : CollPair) (dt restitution bounce repulse : ℚ)
    (hrest : 0 ≤ restitution)
    (hmd : ¬ collpair.distance - epsilon2 > 0)
    (hfut : collpair.flag_in_future = false)
    (hmag : mag_v_rel_old cloth collpair < -ALMOST_ZERO)
    (hbounce : bounce = -(mag_v_rel_old cloth collpair) * restitution)
    (hrepulse : repulse = CLAMP (-(collpair.distance - epsilon2) / dt) 0 (4 * bounce)) :
    (0 ≤ repulse ∧ repulse ≤ 4 * bounce)
    ∧ (collpair.distance - epsilon2 < -epsilon2 →
        collision_response cloth epsilon2 collpair dt restitution
          = (true, mul_v3_v3fl collpair.normal
              (max_ff repulse bounce - v_nor_new cloth collpair)))
    ∧ (¬ collpair.distance - epsilon2 < -epsilon2 →
        collision_response cloth epsilon2 collpair dt restitution
          = (true, mul_v3_v3fl collpair.normal
              (repulse - v_nor_new cloth collpair))) := by
  have haz := ALMOST_ZERO_pos
  have hb : 0 ≤ bounce := by
    rw [hbounce]
    exact mul_nonneg (by linarith) hrest
  have hclamp := CLAMP_mem_of_nonneg (-(collpair.distance - epsilon2) / dt) (4 * bounce)
    (by linarith)
  refine ⟨⟨?_, ?_⟩, ?_, ?_⟩
  · rw [hrepulse]; exact hclamp.1
  · rw [hrepulse]; exact hclamp.2
  · intro hdeep
    rw [collision_response_unfold, if_neg hmd, if_neg (by simp [hfut]), if_pos hmag,
      if_pos hdeep, hrepulse, hbounce]
  · intro hdeep
    rw [collision_response_unfold, if_neg hmd, if_neg (by simp [hfut]), if_pos hmag,
      if_neg hdeep, hrepulse, hbounce]

/-- Witness for C4: a vertex moving straight into the collider at the margin
    (restitution 1/2) gets the pure-repulsion impulse with bounce dropped. -/
theorem collision_response_repulsion_clamp_witness :
    collision_response
        ⟨1, [⟨zero_v3, ⟨0, 0, -1⟩, zero_v3, zero_v3, 1, false, 0⟩], [], none⟩
        (1 / 10)
        ⟨0, 0, ⟨0, 0, 1⟩, 0, false, zero_v3, zero_v3⟩ 1 (1 / 2)
      = (true, mul_v3_v3fl ⟨0, 0, 1⟩
          (CLAMP ((1 / 10) / 1) 0 (4 * (1 * (1 / 2)))
            - v_nor_new ⟨1, [⟨zero_v3, ⟨0, 0, -1⟩, zero_v3, zero_v3, 1, false, 0⟩], [], none⟩
                ⟨0, 0, ⟨0, 0, 1⟩, 0, false, zero_v3, zero_v3⟩)) := by
  have h := collision_response_repulsion_clamp
    ⟨1, [⟨zero_v3, ⟨0, 0, -1⟩, zero_v3, zero_v3, 1, false, 0⟩], [], none⟩
    (1 / 10) ⟨0, 0, ⟨0, 0, 1⟩, 0, false, zero_v3, zero_v3⟩ 1 (1 / 2)
    (1 * (1 / 2)) (CLAMP ((1 / 10) / 1) 0 (4 * (1 * (1 / 2))))
    (by norm_num) (by norm_num)
    rfl
    (by norm_num [mag_v_rel_old, dot_v3v3, sub_v3_v3v3, zero_v3, ALMOST_ZERO])
    (by norm_num [mag_v_rel_old, dot_v3v3, sub_v3_v3v3, zero_v3])
    (by norm_num [CLAMP])
  exact h.2.2 (by norm_num)

/- ===================== C6 ===================== -/

/-- C6: with the goal flag enabled, after each substep of the cloth solve
    loop the solver position of every pinned vertex equals the linear
    interpolation between the vertex's old position `xold` and its
    constrained frame-end position `xconst` at parameter `k * dt` (the
    elapsed substep time after `k` substeps), regardless of what the
    force-accumulation and linear-solve pipeline did to the positions. -/
theorem cloth_solve_pinned_interp (solver : ℚ → (ℕ → V3) → (ℕ → V3))
    (parms : ClothSimParams) (verts : List ClothVertex) (dt : ℚ)
    (pos0 : ℕ → V3) (k i : ℕ)
    (hgoal : parms.goal_flag = true)
    (hpin : (verts.getD i default).pinned = true)
    (hk : 1 ≤ k) :
    cloth_solve_substeps solver parms verts dt k pos0 i
      = interp_v3_v3v3 (verts.getD i default).xold (verts.getD i default).xconst
          ((k : ℚ) * dt) := by
  cases k with
  | zero => omega
  | succ m =>
      show cloth_solve_substep solver parms verts dt ((m : ℚ) * dt)
          (cloth_solve_substeps solver parms verts dt m pos0) i = _
      simp only [cloth_solve_substep, hgoal, hpin, and_self, if_pos, true_and]
      have harg : (m : ℚ) * dt + dt = ((m + 1 : ℕ) : ℚ) * dt := by
        push_cast
        ring
      rw [harg]

/-- Witness for C6: one substep with `dt = 1/2` and an adversarial solver
    leaves the pinned vertex exactly halfway between `xold` and `xconst`. -/
theorem cloth_solve_pinned_interp_witness :
    cloth_solve_substeps (fun _ _ _ => ⟨9, 9, 9⟩) ⟨1, 2, true⟩
        [⟨zero_v3, zero_v3, ⟨0, 0, 0⟩, ⟨2, 4, 6⟩, 1, true, 0⟩] (1 / 2) 1
        (fun _ => zero_v3) 0
      = ⟨1, 2, 3⟩ := by
  have h := cloth_solve_pinned_interp (fun _ _ _ => ⟨9, 9, 9⟩) ⟨1, 2, true⟩
    [⟨zero_v3, zero_v3, ⟨0, 0, 0⟩, ⟨2, 4, 6⟩, 1, true, 0⟩] (1 / 2) (fun _ => zero_v3)
    1 0 rfl rfl (by norm_num)
  rw [h]
  norm_num [interp_v3_v3v3, List.getD]

/- ===================== C7 ===================== -/

/-- Recording a successful first substep into the cleared aggregate. -/
lemma record_first (r : ImplicitSolverResult) (n : ℕ)
    (h : r.status = BPH_SOLVER_SUCCESS) :
    RecordAgg [r.error] [r.iterations] n
      (cloth_record_result cloth_clear_result r n) := by
  have h0 : ¬ cloth_clear_result.status ≠ 0 := by
    simp [cloth_clear_result]
  unfold cloth_record_result
  rw [if_neg h0, if_pos h]
  unfold RecordAgg cloth_clear_result
  refine ⟨?_, by simp, by simp, ?_, by simp, by simp, ?_, by simp, by simp⟩
  · simp only [h, BPH_SOLVER_SUCCESS]
    decide
  · intro e he
    simp at he
    simp [he]
  · intro it hit
    simp at hit
    simp [hit]

/-- Recording one more successful substep preserves the aggregate
    invariant. -/
lemma record_step (s : ClothSolverResult) (r : ImplicitSolverResult) (n : ℕ)
    (seenE : List ℚ) (seenI : List ℕ)
    (hs : RecordAgg seenE seenI n s) (h : r.status = BPH_SOLVER_SUCCESS) :
    RecordAgg (seenE ++ [r.error]) (seenI ++ [r.iterations]) n
      (cloth_record_result s r n) := by
  obtain ⟨hst, havgE, havgI, hbE, hminE, hmaxE, hbI, hminI, hmaxI⟩ := hs
  have hne : s.status ≠ 0 := by
    rw [hst]
    norm_num [BPH_SOLVER_SUCCESS]
  have hrec : cloth_record_result s r n
      = { status := Nat.lor s.status r.status,
          max_error := max_ff s.max_error r.error,
          min_error := min_ff s.min_error r.error,
          avg_error := s.avg_error + r.error / (n : ℚ),
          max_iterations := max_ii s.max_iterations r.iterations,
          min_iterations := min_ii s.min_iterations r.iterations,
          avg_iterations := s.avg_iterations + (r.iterations : ℚ) / (n : ℚ) } := by
    unfold cloth_record_result
    rw [if_pos hne, if_pos h]
  unfold RecordAgg
  rw [hrec]
  refine ⟨?_, ?_, ?_, ?_, ?_, ?_, ?_, ?_, ?_⟩
  · show Nat.lor s.status r.status = BPH_SOLVER_SUCCESS
    rw [hst, h]
    decide
  · show s.avg_error + r.error / (n : ℚ) = (seenE ++ [r.error]).sum / (n : ℚ)
    rw [havgE, div_add_div_same]
    simp
  · show s.avg_iterations + (r.iterations : ℚ) / (n : ℚ) = _
    rw [havgI, div_add_div_same]
    simp
  · intro e he
    rw [List.mem_append] at he
    show min_ff s.min_error r.error ≤ e ∧ e ≤ max_ff s.max_error r.error
    unfold min_ff max_ff
    rcases he with he | he
    · have := hbE e he
      constructor <;> split_ifs <;> linarith [this.1, this.2]
    · rw [List.mem_singleton] at he
      subst he
      constructor <;> split_ifs <;> linarith
  · show min_ff s.min_error r.error ∈ seenE ++ [r.error]
    unfold min_ff
    split_ifs
    · exact List.mem_append_left _ hminE
    · simp
  · show max_ff s.max_error r.error ∈ seenE ++ [r.error]
    unfold max_ff
    split_ifs
    · exact List.mem_append_left _ hmaxE
    · simp
  · intro it hit
    rw [List.mem_append] at hit
    show min_ii s.min_iterations r.iterations ≤ it
      ∧ it ≤ max_ii s.max_iterations r.iterations
    unfold min_ii max_ii
    rcases hit with hit | hit
    · have := hbI it hit
      constructor <;> split_ifs <;> omega
    · rw [List.mem_singleton] at hit
      subst hit
      constructor <;> split_ifs <;> omega
  · show min_ii s.min_iterations r.iterations ∈ seenI ++ [r.iterations]
    unfold min_ii
    split_ifs
    · exact List.mem_append_left _ hminI
    · simp
  · show max_ii s.max_iterations r.iterations ∈ seenI ++ [r.iterations]
    unfold max_ii
    split_ifs
    · exact List.mem_append_left _ hmaxI
    · simp

/-- Folding any further successful substeps preserves the aggregate
    invariant. -/
lemma record_fold (n : ℕ) :
    ∀ (rest : List ImplicitSolverResult) (s : ClothSolverResult)
      (seenE : List ℚ) (seenI : List ℕ),
      RecordAgg seenE seenI n s →
      (∀ r ∈ rest, r.status = BPH_SOLVER_SUCCESS) →
      RecordAgg (seenE ++ rest.map fun r => r.error)
        (seenI ++ rest.map fun r => r.iterations) n
        (rest.foldl (fun s r => cloth_record_result s r n) s) := by
  intro rest
  induction rest with
  | nil => intro s seenE seenI hA _; simpa using hA
  | cons r rest ih =>
      intro s seenE seenI hA hall
      simp only [List.foldl_cons, List.map_cons]
      have h1 := record_step s r n seenE seenI hA (hall r (by simp))
      have h2 := ih (cloth_record_result s r n) (seenE ++ [r.error])
        (seenI ++ [r.iterations]) h1 (fun x hx => hall x (by simp [hx]))
      simpa [List.append_assoc] using h2

/-- Folding `Nat.lor` over a list of copies of `1` starting from `1`. -/
lemma lor_fold_ones_from_one :
    ∀ l : List ℕ, (∀ x ∈ l, x = 1) → l.foldl Nat.lor 1 = 1 := by
  intro l
  induction l with
  | nil => intro _; rfl
  | cons x rest ih =>
      intro hall
      have hx : x = 1 := hall x (by simp)
      simp only [List.foldl_cons, hx]
      exact ih fun y hy => hall y (by simp [hy])

/-- C7: starting from the cleared per-frame record, recording
    `stepsPerFrame` substep results that all report success yields average
    error and average iteration count equal to the arithmetic means, min/max
    error and min/max iteration count equal to the extremes over the
    substeps, and an aggregated status equal to the bitwise OR of the
    per-substep statuses. -/
theorem cloth_record_result_aggregates (results : List ImplicitSolverResult)
    (n : ℕ) (hn : results.length = n) (hne : results ≠ [])
    (hall : ∀ r ∈ results, r.status = BPH_SOLVER_SUCCESS) :
    RecordAgg (results.map fun r => r.error) (results.map fun r => r.iterations) n
      (results.foldl (fun s r => cloth_record_result s r n) cloth_clear_result)
    ∧ (results.foldl (fun s r => cloth_record_result s r n) cloth_clear_result).status
        = (results.map fun r => r.status).foldl Nat.lor 0 := by
  match results, hne with
  | r0 :: rest, _ =>
    have h1 := record_first r0 n (hall r0 (by simp))
    have h2 := record_fold n rest (cloth_record_result cloth_clear_result r0 n)
      [r0.error] [r0.iterations] h1 (fun x hx => hall x (by simp [hx]))
    have hagg : RecordAgg ((r0 :: rest).map fun r => r.error)
        ((r0 :: rest).map fun r => r.iterations) n
        ((r0 :: rest).foldl (fun s r => cloth_record_result s r n)
          cloth_clear_result) := by
      simpa using h2
    refine ⟨hagg, ?_⟩
    have hor : ((r0 :: rest).map fun r => r.status).foldl Nat.lor 0 = 1 := by
      simp only [List.map_cons, List.foldl_cons, hall r0 (by simp), BPH_SOLVER_SUCCESS]
      have : Nat.lor 0 1 = 1 := by decide
      rw [this]
      exact lor_fold_ones_from_one _ fun y hy => by
        rw [List.mem_map] at hy
        obtain ⟨r, hr, hy⟩ := hy
        rw [← hy, hall r (by simp [hr])]
        rfl
    rw [hor, hagg.1]
    rfl

/-- Witness for C7: two successful substeps with errors 2 and 4 and
    iteration counts 4 and 10 aggregate to average error 3, extremes 2/4,
    average iterations 7, extremes 4/10, status 1. -/
theorem cloth_record_result_aggregates_witness :
    ([(⟨1, 4, 2⟩ : ImplicitSolverResult), ⟨1, 10, 4⟩].foldl
        (fun s r => cloth_record_result s r 2) cloth_clear_result).avg_error = 3 := by
  have h := cloth_record_result_aggregates [⟨1, 4, 2⟩, ⟨1, 10, 4⟩] 2 rfl
    (by simp) (by intro r hr; simp at hr; rcases hr with h | h <;> simp [h, BPH_SOLVER_SUCCESS])
  have havg := h.1.2.1
  rw [havg]
  norm_num

/- ===================== list helper lemmas ===================== -/

/-- Folding a step that preserves an invariant preserves it for the whole
    list, when every element satisfies the side condition. -/
lemma foldl_preserves {α σ : Type _} (P : σ → Prop) (Q : α → Prop) (f : σ → α → σ)
    (hstep : ∀ s a, Q a → P s → P (f s a)) :
    ∀ (l : List α) (s : σ), (∀ a ∈ l, Q a) → P s → P (l.foldl f s) := by
  intro l
  induction l with
  | nil => intro s _ hP; simpa using hP
  | cons a rest ih =>
      intro s hQ hP
      simp only [List.foldl_cons]
      exact ih _ (fun x hx => hQ x (by simp [hx])) (hstep s a (hQ a (by simp)) hP)

/-- The payload of an `enumFrom` entry is a list element. -/
lemma snd_mem_of_mem_enumFrom {α : Type _} :
    ∀ (l : List α) (k : ℕ) (p : ℕ × α), p ∈ l.enumFrom k → p.2 ∈ l := by
  intro l
  induction l with
  | nil => intro k p h; simp [List.enumFrom] at h
  | cons a rest ih =>
      intro k p h
      rw [List.enumFrom] at h
      rcases List.mem_cons.mp h with h | h
      · rw [h]
        simp
      · exact List.mem_cons_of_mem _ (ih (k + 1) p h)

/-- `getD` after `set` at the written index. -/
lemma getD_set_self {α : Type _} (a d : α) :
    ∀ (l : List α) (i : ℕ), i < l.length → (l.set i a).getD i d = a := by
  intro l
  induction l with
  | nil => intro i h; simp at h
  | cons x xs ih =>
      intro i h
      cases i with
      | zero => rfl
      | succ n => exact ih n (by simpa using h)

/-- `getD` after `set` at another index. -/
lemma getD_set_ne {α : Type _} (a d : α) :
    ∀ (l : List α) (i j : ℕ), i ≠ j → (l.set i a).getD j d = l.getD j d := by
  intro l
  induction l with
  | nil => intro i j _; simp
  | cons x xs ih =>
      intro i j hij
      cases i with
      | zero =>
          cases j with
          | zero => exact absurd rfl hij
          | succ m => rfl
      | succ n =>
          cases j with
          | zero => rfl
          | succ m => exact ih n m (by omega)

/-- Reading through the `impulse_count`-reset map. -/
lemma getD_map_reset (verts : List ClothVertex) (i : ℕ) :
    (verts.map fun vert => { vert with impulse_count := 0 }).getD i default
      = { verts.getD i default with impulse_count := 0 } := by
  by_cases h : i < verts.length
  · rw [List.getD_eq_getElem _ _ (by simpa using h), List.getD_eq_getElem _ _ h,
      List.getElem_map]
  · rw [List.getD_eq_default _ _ (by simpa using Nat.le_of_not_lt h),
      List.getD_eq_default _ _ (Nat.le_of_not_lt h)]
    rfl

/-- Counting a pin constraint in the filterMap over a duplicate-free index
    list: one hit exactly when the index is listed and pinned. -/
lemma count_ndof0_filterMap (p : ℕ → Bool) :
    ∀ L : List ℕ, L.Nodup → ∀ v : ℕ,
      ((L.filterMap fun w =>
          if p w then some (Constraint.ndof0 w zero_v3) else none).count
        (Constraint.ndof0 v zero_v3))
      = if v ∈ L ∧ p v = true then 1 else 0 := by
  intro L
  induction L with
  | nil => intro _ v; simp
  | cons w L ih =>
      intro hnd v
      have hndL : L.Nodup := (List.nodup_cons.mp hnd).2
      have hw : w ∉ L := (List.nodup_cons.mp hnd).1
      by_cases hp : p w = true
      · by_cases hv : w = v
        · subst hv
          simp only [List.filterMap_cons, hp, ite_true, List.count_cons_self, ih hndL w]
          simp [hw, hp]
        · have hv2 : ¬ v = w := fun hc => hv hc.symm
          have hne : Constraint.ndof0 v zero_v3 ≠ Constraint.ndof0 w zero_v3 := by
            intro hc
            injection hc with h1 h2
            exact hv2 h1
          simp only [List.filterMap_cons, hp, ite_true, List.count_cons_of_ne hne,
            ih hndL v]
          simp [List.mem_cons, hv2]
      · simp only [List.filterMap_cons, hp, ite_false, Bool.false_eq_true, ih hndL v]
        by_cases hv : v = w
        · subst hv
          have hp2 : ¬ p v = true := hp
          simp [hw, hp2]
        · simp [List.mem_cons, hv]

/- ===================== cloth_setup_contact lemmas ===================== -/

/-- `cloth_setup_contact` with its local variables substituted away
    (`restitution` is the literal `0.0f` of the C code). -/
lemma cloth_setup_contact_unfold (cloth : Cloth) (dt : ℚ) (i : ℕ) (epsilon2 : ℚ)
    (st : SetupState) (cp : CollPair) :
    cloth_setup_contact cloth dt i epsilon2 st cp
      = if (st.verts.getD cp.face1 default).pinned = true then st
        else if (st.verts.getD cp.face1 default).impulse_count > 0 then st
        else if (collision_response { cloth with verts := st.verts } epsilon2 cp dt 0).1
            = false then st
        else
          { constraints := st.constraints
              ++ [Constraint.ndof2 i cp.normal
                    (collision_response { cloth with verts := st.verts } epsilon2 cp dt 0).2],
            verts := st.verts.set cp.face1
              { st.verts.getD cp.face1 default with
                  impulse_count := (st.verts.getD cp.face1 default).impulse_count + 1 } } :=
  rfl

/-- An accepted `collision_response` at restitution zero yields the impulse
    `normal * (0 - v_nor_new)`: bounce is zero, and the clamp forces the
    repulsion to zero. -/
lemma collision_response_zero_restitution (cloth : Cloth) (epsilon2 : ℚ)
    (collpair : CollPair) (dt : ℚ)
    (h : (collision_response cloth epsilon2 collpair dt 0).1 = true) :
    (collision_response cloth epsilon2 collpair dt 0).2
      = mul_v3_v3fl collpair.normal (-(v_nor_new cloth collpair)) := by
  rw [collision_response_unfold] at h ⊢
  split_ifs at h ⊢ with h1 h2 h3 h4 <;>
    simp_all [mul_zero, CLAMP_zero, max_ff, zero_sub]

/-- `cloth_setup_contact` preserves the setup invariant. -/
lemma setup_contact_preserves_inv (cloth : Cloth) (contacts : List ColliderContacts)
    (dt : ℚ) (i : ℕ) (epsilon2 : ℚ) (st : SetupState) (cp : CollPair)
    (hcp : InContacts contacts cp)
    (hinv : SetupInv cloth contacts st) :
    SetupInv cloth contacts (cloth_setup_contact cloth dt i epsilon2 st cp) := by
  obtain ⟨hlen, hvert, hcount, hndof2⟩ := hinv
  rw [cloth_setup_contact_unfold]
  split_ifs with hpin hcnt hres
  · exact ⟨hlen, hvert, hcount, hndof2⟩
  · exact ⟨hlen, hvert, hcount, hndof2⟩
  · exact ⟨hlen, hvert, hcount, hndof2⟩
  · have hrt : (collision_response { cloth with verts := st.verts } epsilon2 cp dt 0).1
        = true := by
      cases hb : (collision_response { cloth with verts := st.verts } epsilon2 cp dt 0).1
      · exact absurd hb hres
      · rfl
    have hc0 : (st.verts.getD cp.face1 default).impulse_count = 0 := by omega
    refine ⟨by simpa using hlen, ?_, ?_, ?_⟩
    · intro j
      by_cases hj : cp.face1 = j
      · subst hj
        by_cases hlt : cp.face1 < st.verts.length
        · rw [getD_set_self _ _ _ _ hlt]
          refine ⟨(hvert cp.face1).1, (hvert cp.face1).2.1, ?_, ?_⟩
          · show (st.verts.getD cp.face1 default).impulse_count + 1 ≤ 1
            omega
          · intro hp
            exact absurd hp hpin
        · have hge : st.verts.length ≤ cp.face1 := Nat.le_of_not_lt hlt
          have hgd : (st.verts.set cp.face1
              { st.verts.getD cp.face1 default with
                  impulse_count := (st.verts.getD cp.face1 default).impulse_count + 1 }).getD
                cp.face1 default = default := by
            rw [List.getD_eq_default]
            simpa using hge
          have hgd2 : cloth.verts.getD cp.face1 default = default := by
            rw [List.getD_eq_default]
            omega
          rw [hgd, hgd2]
          exact ⟨rfl, rfl, Nat.zero_le 1, fun _ => rfl⟩
      · rw [getD_set_ne _ _ _ _ _ hj]
        exact hvert j
    · intro v
      rw [List.count_append, hcount v]
      simp
    · intro idx nn imp hmem
      rw [List.mem_append] at hmem
      rcases hmem with hmem | hmem
      · exact hndof2 idx nn imp hmem
      · rw [List.mem_singleton] at hmem
        injection hmem with e1 e2 e3
        refine ⟨cp, hcp, e2, ?_⟩
        rw [e3, collision_response_zero_restitution _ _ _ _ hrt]
        have hveq : ({ cloth with verts := st.verts } : Cloth).verts.getD cp.ap1 default
            = st.verts.getD cp.ap1 default := rfl
        unfold v_nor_new
        rw [hveq, (hvert cp.ap1).1]

/-- The state entering the contact loops satisfies the setup invariant. -/
lemma setup_inv_init (cloth : Cloth) (contacts : List ColliderContacts) :
    SetupInv cloth contacts
      ⟨(List.range cloth.verts.length).filterMap fun v =>
          if (cloth.verts.getD v default).pinned then some (Constraint.ndof0 v zero_v3)
          else none,
        cloth.verts.map fun vert => { vert with impulse_count := 0 }⟩ := by
  refine ⟨by simp, ?_, fun v => rfl, ?_⟩
  · intro i
    have hread := getD_map_reset cloth.verts i
    dsimp only
    rw [hread]
    exact ⟨rfl, rfl, Nat.zero_le 1, fun _ => rfl⟩
  · intro idx nn imp hmem
    dsimp only at hmem
    rw [List.mem_filterMap] at hmem
    obtain ⟨w, hw, hsome⟩ := hmem
    by_cases hp : (cloth.verts.getD w default).pinned = true
    · rw [if_pos hp] at hsome
      exact absurd hsome (by simp)
    · rw [if_neg hp] at hsome
      exact absurd hsome (by simp)

/-- The full `cloth_setup_constraints` satisfies the setup invariant. -/
lemma setup_constraints_inv (cloth : Cloth) (contacts : List ColliderContacts)
    (dt : ℚ) :
    SetupInv cloth contacts (cloth_setup_constraints cloth contacts dt) := by
  have h := foldl_preserves (SetupInv cloth contacts)
    (fun ict : ℕ × ColliderContacts => ict.2 ∈ contacts)
    (fun st ict => ict.2.collisions.foldl
      (cloth_setup_contact cloth dt ict.1 ict.2.epsilon) st)
    (fun st ict hq hP => foldl_preserves (SetupInv cloth contacts)
      (fun cp => cp ∈ ict.2.collisions)
      (cloth_setup_contact cloth dt ict.1 ict.2.epsilon)
      (fun st2 cp hq2 hP2 =>
        setup_contact_preserves_inv cloth contacts dt ict.1 ict.2.epsilon st2 cp
          ⟨ict.2, hq, hq2⟩ hP2)
      ict.2.collisions st (fun a ha => ha) hP)
    contacts.enum
    ⟨(List.range cloth.verts.length).filterMap fun v =>
        if (cloth.verts.getD v default).pinned then some (Constraint.ndof0 v zero_v3)
        else none,
      cloth.verts.map fun vert => { vert with impulse_count := 0 }⟩
    (fun p hp => snd_mem_of_mem_enumFrom contacts 0 p hp)
    (setup_inv_init cloth contacts)
  exact h

/- ===================== C3 ===================== -/

/-- C3: after `cloth_setup_constraints`, every vertex's impulse count is at
    most 1 (first-accepted-wins), pinned vertices keep impulse count 0
    (their contacts are skipped entirely), and the fresh constraint list
    contains exactly one zero-degrees-of-freedom velocity constraint per
    pinned vertex (and none for unpinned vertices). -/
theorem cloth_setup_constraints_one_response (cloth : Cloth)
    (contacts : List ColliderContacts) (dt : ℚ) :
    (∀ i : ℕ,
        ((cloth_setup_constraints cloth contacts dt).verts.getD i default).impulse_count
          ≤ 1)
    ∧ (∀ i : ℕ, (cloth.verts.getD i default).pinned = true →
        ((cloth_setup_constraints cloth contacts dt).verts.getD i default).impulse_count
          = 0)
    ∧ (∀ v : ℕ,
        (cloth_setup_constraints cloth contacts dt).constraints.count
            (Constraint.ndof0 v zero_v3)
          = if v < cloth.verts.length ∧ (cloth.verts.getD v default).pinned = true
            then 1 else 0) := by
  obtain ⟨hlen, hvert, hcount, hndof2⟩ := setup_constraints_inv cloth contacts dt
  refine ⟨fun i => (hvert i).2.2.1, ?_, ?_⟩
  · intro i hpin
    exact (hvert i).2.2.2 (by rw [(hvert i).2.1]; exact hpin)
  · intro v
    rw [hcount v]
    have hpins : (cloth_setup_constraints cloth [] 1).constraints
        = (List.range cloth.verts.length).filterMap fun w =>
            if (cloth.verts.getD w default).pinned then some (Constraint.ndof0 w zero_v3)
            else none := rfl
    rw [hpins, count_ndof0_filterMap (fun w => (cloth.verts.getD w default).pinned)
      (List.range cloth.verts.length) (List.nodup_range _) v]
    simp [List.mem_range]

/-- Witness for C3: a pinned vertex entering the substep with a stale
    impulse count 5 leaves constraint setup with impulse count 0. -/
theorem cloth_setup_constraints_one_response_witness :
    ((cloth_setup_constraints
        ⟨1, [⟨zero_v3, zero_v3, zero_v3, zero_v3, 1, true, 5⟩], [], none⟩ [] 1).verts.getD
      0 default).impulse_count = 0 :=
  (cloth_setup_constraints_one_response
      ⟨1, [⟨zero_v3, zero_v3, zero_v3, zero_v3, 1, true, 5⟩], [], none⟩ [] 1).2.1 0 rfl

/- ===================== C9 ===================== -/

/-- C9: because `cloth_setup_constraints` passes the constant restitution 0
    to `collision_response`, every two-degrees-of-freedom constraint it emits
    carries the impulse `normal * (-(v_nor_new))` of one of the contacts: the
    bounce term vanishes and the clamp forces the repulsion term to zero, in
    both the deep-penetration and the at-margin branch. -/
theorem cloth_setup_constraints_impulse_form (cloth : Cloth)
    (contacts : List ColliderContacts) (dt : ℚ) :
    ∀ idx : ℕ, ∀ nn imp : V3,
      Constraint.ndof2 idx nn imp ∈ (cloth_setup_constraints cloth contacts dt).constraints →
      ∃ cp : CollPair, InContacts contacts cp ∧ nn = cp.normal
        ∧ imp = mul_v3_v3fl cp.normal (-(v_nor_new cloth cp)) := by
  obtain ⟨hlen, hvert, hcount, hndof2⟩ := setup_constraints_inv cloth contacts dt
  exact hndof2

/-- Evaluating the constraint setup on the fixture: the single accepted
    contact (vertex 2 of collider 0) yields exactly one two-degrees-of-freedom
    constraint, carrying the collider loop index 0 and impulse (0, 0, 1). -/
lemma setup_example_constraints :
    (cloth_setup_constraints exampleCloth [exampleCollider] 1).constraints
      = [Constraint.ndof2 0 ⟨0, 0, 1⟩ ⟨0, 0, 1⟩] := by
  have hskel : cloth_setup_constraints exampleCloth [exampleCollider] 1
      = cloth_setup_contact exampleCloth 1 0 1 ⟨[], exampleVerts⟩ exampleContact := rfl
  have hveq : ({ exampleCloth with verts := (⟨[], exampleVerts⟩ : SetupState).verts } : Cloth)
      = exampleCloth := rfl
  have hmag : mag_v_rel_old exampleCloth exampleContact = -1 := by
    norm_num [mag_v_rel_old, exampleCloth, exampleContact, exampleVerts, dot_v3v3,
      sub_v3_v3v3, zero_v3]
  have hnew : v_nor_new exampleCloth exampleContact = -1 := by
    norm_num [v_nor_new, exampleCloth, exampleContact, exampleVerts, dot_v3v3,
      sub_v3_v3v3, zero_v3]
  have hres : collision_response exampleCloth 1 exampleContact 1 0 = (true, ⟨0, 0, 1⟩) := by
    rw [collision_response_unfold]
    rw [if_neg (by norm_num [exampleContact]),
      if_neg (by norm_num [exampleContact]),
      if_pos (by rw [hmag]; norm_num [ALMOST_ZERO]),
      if_neg (by norm_num [exampleContact])]
    rw [hmag, hnew]
    norm_num [CLAMP, mul_v3_v3fl, exampleContact]
  rw [hskel, cloth_setup_contact_unfold]
  rw [if_neg (by norm_num [exampleContact, exampleVerts, List.getD]),
    if_neg (by norm_num [exampleContact, exampleVerts, List.getD])]
  rw [show (⟨[], exampleVerts⟩ : SetupState).verts = exampleVerts from rfl] at *
  rw [show ({ exampleCloth with verts := exampleVerts } : Cloth) = exampleCloth from rfl]
  rw [hres]
  norm_num [exampleContact]

/- ===================== C2 ===================== -/

/-- C2: evaluating `cloth_setup_constraints` at the fixture shows that the
    accepted contact on vertex 2 (equal `face1` and `ap1`) produces a
    two-degrees-of-freedom constraint registered for index 0 — the collider's
    position in the contact list — and no constraint for vertex 2: the C code
    passes the collider loop counter `i`, not the contact's vertex index `v`,
    to `BPH_mass_spring_add_constraint_ndof2`. -/
theorem cloth_setup_constraints_addresses_collider_index :
    exampleContact.face1 = 2
    ∧ exampleContact.ap1 = 2
    ∧ (cloth_setup_constraints exampleCloth [exampleCollider] 1).constraints
        = [Constraint.ndof2 0 ⟨0, 0, 1⟩ ⟨0, 0, 1⟩] :=
  ⟨rfl, rfl, setup_example_constraints⟩

/-- Witness for C9: the constraint emitted for the fixture contact indeed
    carries the zero-restitution impulse `normal * (-(v_nor_new))`. -/
theorem cloth_setup_constraints_impulse_form_witness :
    ∃ cp : CollPair, InContacts [exampleCollider] cp
      ∧ (⟨0, 0, 1⟩ : V3) = cp.normal
      ∧ (⟨0, 0, 1⟩ : V3) = mul_v3_v3fl cp.normal (-(v_nor_new exampleCloth cp)) := by
  apply cloth_setup_constraints_impulse_form exampleCloth [exampleCollider] 1 0 ⟨0, 0, 1⟩
    ⟨0, 0, 1⟩
  rw [setup_example_constraints]
  exact List.mem_singleton_self _

end BPH
